import Mathlib

/-!
Shallow embedding of the persistence-and-aggregation core of
`src/EXPENSE_TRACKER.py`: the `DB` class (SQLite-backed credential store,
category registry, expense ledger and aggregation queries) together with
the validation logic and budget-alert rule of `MainApp.add_expense`.

Modelling conventions:
* SQLite `REAL` amounts are modelled as exact rationals (`ℚ`).
* `TEXT` columns are `String`; SQLite's BINARY collation (byte-wise
  `memcmp`), used when the `date` column is compared against the month
  bounds, is modelled by `strLt`/`strLe` below — identical to code-point
  order on the ASCII strings involved.
* SQL `NULL` in `categories.user_id` is `Option.none`.
* The AUTOINCREMENT primary keys are modelled with explicit counters in
  the database state.
* `hashlib.sha256(x).hexdigest()` is an arbitrary function
  `hash : String → String` threaded through the credential operations.
-/

namespace ExpenseTracker

/-- Byte-wise lexicographic strict comparison of character lists: the
BINARY collation SQLite applies when comparing `date TEXT` values. -/
def lexLt : List Char → List Char → Bool
  | [], [] => false
  | [], _ :: _ => true
  | _ :: _, [] => false
  | a :: as, b :: bs =>
    if a.toNat < b.toNat then true
    else if b.toNat < a.toNat then false
    else lexLt as bs

/-- SQL `<` on text values. -/
def strLt (a b : String) : Bool := lexLt a.data b.data

/-- SQL `<=`/`>=` on text values. -/
def strLe (a b : String) : Bool := !(strLt b a)

/-- A row of the `users` table. -/
structure UserRow where
  id : Nat
  username : String
  password_hash : String
  budget : ℚ
deriving DecidableEq

/-- A row of the `categories` table; `user_id = none` models SQL NULL,
i.e. a global category. -/
structure CategoryRow where
  id : Nat
  name : String
  user_id : Option Nat
deriving DecidableEq

/-- A row of the `expenses` table. -/
structure Expense where
  id : Nat
  user_id : Nat
  amount : ℚ
  category : String
  description : String
  date : String
deriving DecidableEq

/-- The three tables of the schema plus the AUTOINCREMENT counters. -/
structure DBState where
  users : List UserRow
  categories : List CategoryRow
  expenses : List Expense
  next_user_id : Nat
  next_category_id : Nat
  next_expense_id : Nat
deriving DecidableEq

/-- A freshly created database (AUTOINCREMENT keys start at 1). -/
def emptyDB : DBState := ⟨[], [], [], 1, 1, 1⟩

/-- The `UNIQUE(name, user_id)` check for an insert into `categories`.
Per SQLite semantics NULL is distinct from every value — including other
NULLs — in a UNIQUE constraint, so inserting a global row (`user_id`
NULL) never conflicts with anything. -/
def categoryConflict (cats : List CategoryRow) (name : String) (uid : Option Nat) : Bool :=
  match uid with
  | none => false
  | some u => cats.any (fun c => c.name == name && c.user_id == some u)

/-- `INSERT INTO categories (name, user_id) VALUES (?,?)`: yields
`false` (an IntegrityError) on a UNIQUE conflict, else inserts the row. -/
def insert_category (db : DBState) (name : String) (uid : Option Nat) : Bool × DBState :=
  if categoryConflict db.categories name uid then (false, db)
  else (true, { db with
    categories := db.categories ++ [⟨db.next_category_id, name, uid⟩],
    next_category_id := db.next_category_id + 1 })

/-- The seed list in `DB.create_tables`. -/
def default_categories : List String :=
  ["Food", "Transport", "Shopping", "Bills", "Entertainment", "Other"]

/-- The seeding loop of `DB.create_tables`: for each default name, try
to insert a global row and silently swallow an IntegrityError. -/
def create_tables (db : DBState) : DBState :=
  default_categories.foldl (fun s cat => (insert_category s cat none).2) db

/-- `DB.add_category`. -/
def add_category (db : DBState) (name : String) (uid : Option Nat) : Bool × DBState :=
  insert_category db name uid

/-- The comparison used for `ORDER BY name` (ascending, BINARY collation). -/
def nameAsc (a b : String) : Prop := strLe a b = true

instance : DecidableRel nameAsc := fun a b => inferInstanceAs (Decidable (strLe a b = true))

/-- `DB.get_categories`: `SELECT name FROM categories WHERE user_id IS
NULL OR user_id = ? ORDER BY name` (note: no `DISTINCT`). -/
def get_categories (db : DBState) (uid : Option Nat) : List String :=
  match uid with
  | none =>
    List.insertionSort nameAsc
      ((db.categories.filter (fun c => c.user_id == none)).map CategoryRow.name)
  | some u =>
    List.insertionSort nameAsc
      ((db.categories.filter (fun c => c.user_id == none || c.user_id == some u)).map CategoryRow.name)

/-- The state after `INSERT INTO users (username, password_hash) VALUES
(?,?)`: the new row takes the next id and the schema's `budget` default
0. -/
def with_new_user (db : DBState) (username pw_hash : String) : DBState :=
  { db with users := db.users ++ [⟨db.next_user_id, username, pw_hash, 0⟩], next_user_id := db.next_user_id + 1 }

/-- `DB.add_user`: returns `false` on the UNIQUE-username IntegrityError,
else inserts a row whose `budget` takes the schema default 0. -/
def add_user (hash : String → String) (db : DBState) (username password : String) : Bool × DBState :=
  if db.users.any (fun u => u.username == username) then (false, db)
  else (true, with_new_user db username (hash password))

/-- `DB.authenticate`: the first row matching both username and stored
hash, if any. -/
def authenticate (hash : String → String) (db : DBState) (username password : String) : Option UserRow :=
  db.users.find? (fun u => u.username == username && u.password_hash == hash password)

/-- `DB.add_expense`. -/
def add_expense (db : DBState) (user_id : Nat) (amount : ℚ) (category description date : String) : DBState :=
  { db with
    expenses := db.expenses ++ [⟨db.next_expense_id, user_id, amount, category, description, date⟩],
    next_expense_id := db.next_expense_id + 1 }

/-- The `SET amount=?, category=?, description=?, date=?` part of
`DB.update_expense` applied to one row. -/
def updated_row (e : Expense) (amount : ℚ) (category description date : String) : Expense :=
  { e with amount := amount, category := category, description := description, date := date }

/-- `DB.update_expense`: `UPDATE expenses SET amount=?, category=?,
description=?, date=? WHERE id=?`.  There is no rowcount check: a
missing id updates nothing and raises nothing. -/
def update_expense (db : DBState) (exp_id : Nat) (amount : ℚ) (category description date : String) : DBState :=
  { db with
    expenses := db.expenses.map (fun e =>
      if e.id == exp_id then updated_row e amount category description date else e) }

/-- `DB.delete_expense`: `DELETE FROM expenses WHERE id=?`. -/
def delete_expense (db : DBState) (exp_id : Nat) : DBState :=
  { db with expenses := db.expenses.filter (fun e => !(e.id == exp_id)) }

/-- The comparison used for `ORDER BY date DESC`. -/
def dateDesc (a b : Expense) : Prop := strLe b.date a.date = true

instance : DecidableRel dateDesc := fun a b => inferInstanceAs (Decidable (strLe b.date a.date = true))

/-- `DB.get_expenses`: `SELECT * FROM expenses WHERE user_id=? ORDER BY
date DESC`. -/
def get_expenses (db : DBState) (user_id : Nat) : List Expense :=
  List.insertionSort dateDesc (db.expenses.filter (fun e => e.user_id == user_id))

/-- Decimal digits of a natural number, most significant first; the
structural fuel keeps the definition kernel-evaluable. -/
def digitsAux : Nat → Nat → List Char
  | 0, _ => []
  | fuel + 1, n => if n = 0 then [] else digitsAux fuel (n / 10) ++ [Nat.digitChar (n % 10)]

/-- Decimal rendering of a natural number. -/
def natToChars (n : Nat) : List Char := if n = 0 then ['0'] else digitsAux (n + 1) n

/-- Python `f"{n:02d}"`. -/
def pad2 (n : Nat) : List Char := if n < 10 then '0' :: natToChars n else natToChars n

/-- Python `f"{n:04d}"`. -/
def pad4 (n : Nat) : List Char :=
  if n < 10 then '0' :: '0' :: '0' :: natToChars n
  else if n < 100 then '0' :: '0' :: natToChars n
  else if n < 1000 then '0' :: natToChars n
  else natToChars n

/-- `start = f"{year:04d}-{month:02d}-01"` in `DB.get_monthly_total` and
`DB.get_category_summary`. -/
def month_start (year month : Nat) : String :=
  String.mk (pad4 year ++ '-' :: pad2 month ++ ['-', '0', '1'])

/-- The end bound of the half-open month interval: January 1 of the next
year for December, else the first of the next month (the explicit
rollover branch in the source). -/
def month_end (year month : Nat) : String :=
  if month = 12 then String.mk (pad4 (year + 1) ++ ['-', '0', '1', '-', '0', '1'])
  else String.mk (pad4 year ++ '-' :: pad2 (month + 1) ++ ['-', '0', '1'])

/-- The rows selected by `WHERE user_id=? AND date>=? AND date<?`. -/
def matching_expenses (db : DBState) (user_id year month : Nat) : List Expense :=
  db.expenses.filter (fun e =>
    e.user_id == user_id && strLe (month_start year month) e.date
      && strLt e.date (month_end year month))

/-- SQL `SUM`: NULL (`none`) when there are no rows. -/
def sql_sum (l : List ℚ) : Option ℚ := if l.isEmpty then none else some l.sum

/-- `DB.get_monthly_total`: the summed amounts of the selected rows, with
SQL's NULL result mapped to 0 by the Python wrapper. -/
def get_monthly_total (db : DBState) (user_id year month : Nat) : ℚ :=
  (sql_sum ((matching_expenses db user_id year month).map Expense.amount)).getD 0

/-- `DB.get_category_summary`: `SELECT category, SUM(amount) ... GROUP BY
category` over the same row selection.  SQLite does not specify the
order of the groups; they are listed here by distinct category value of
the selected rows. -/
def get_category_summary (db : DBState) (user_id year month : Nat) : List (String × ℚ) :=
  let rows := matching_expenses db user_id year month
  ((rows.map Expense.category).dedup).map (fun c =>
    (c, ((rows.filter (fun e => e.category == c)).map Expense.amount).sum))

/-- The whitespace characters stripped by Python `str.strip()` (the
ASCII ones relevant to this program). -/
def isSpaceChar (c : Char) : Bool := c == ' ' || c == '\t' || c == '\n' || c == '\r'

/-- Strip leading and trailing whitespace from a character list. -/
def trimChars (cs : List Char) : List Char :=
  ((cs.dropWhile isSpaceChar).reverse.dropWhile isSpaceChar).reverse

/-- Python `str.strip()`. -/
def strip (s : String) : String := String.mk (trimChars s.data)

/-- The value of a digit string, most significant digit first. -/
def digitsVal (cs : List Char) : Nat := cs.foldl (fun a c => a * 10 + (c.toNat - 48)) 0

/-- The unsigned body of a decimal literal accepted by Python `float`:
digits with an optional decimal point (`"1"`, `"1."`, `".5"`, `"1.5"`). -/
def pyFloatBody? (body : List Char) : Option ℚ :=
  let intPart := body.takeWhile Char.isDigit
  let rest := body.drop intPart.length
  match rest with
  | [] => if intPart.isEmpty then none else some ((digitsVal intPart : Nat) : ℚ)
  | '.' :: frac =>
    if frac.all Char.isDigit && !(intPart.isEmpty && frac.isEmpty) then
      some ((digitsVal intPart : ℚ) + (digitsVal frac : ℚ) / (10 : ℚ) ^ frac.length)
    else none
  | _ => none

/-- A model of the builtin `float()` on decimal literals: surrounding
whitespace is stripped, an optional sign precedes the digits.  Exponent
forms, digit-group underscores, `inf` and `nan` are outside the model;
values are exact rationals rather than IEEE doubles. -/
def pyFloat? (s : String) : Option ℚ :=
  match trimChars s.data with
  | '+' :: body => pyFloatBody? body
  | '-' :: body => (pyFloatBody? body).map (fun q => -q)
  | body => pyFloatBody? body

/-- Split a character list on a separator character. -/
def splitOnChar (sep : Char) : List Char → List (List Char)
  | [] => [[]]
  | c :: cs =>
    match splitOnChar sep cs with
    | [] => [[]]
    | g :: gs => if c == sep then [] :: g :: gs else (c :: g) :: gs

/-- Gregorian leap-year rule, as implemented by `datetime`. -/
def isLeap (y : Nat) : Bool := (y % 4 == 0 && !(y % 100 == 0)) || y % 400 == 0

/-- Days in a month, as validated by `datetime.date`. -/
def days_in_month (y m : Nat) : Nat :=
  if m = 2 then (if isLeap y then 29 else 28)
  else if m = 4 ∨ m = 6 ∨ m = 9 ∨ m = 11 then 30
  else 31

/-- A model of `datetime.strptime(s, "%Y-%m-%d")` succeeding: CPython
matches `%Y` against exactly four digits and `%m`/`%d` against one or
two digits (a leading zero is optional), requires the whole string to be
consumed, and then builds a `datetime.date`, which demands year ≥ 1, a
month in 1..12 and a day valid for that month. -/
def valid_date (s : String) : Bool :=
  match splitOnChar '-' s.data with
  | [ys, ms, ds] =>
    ys.length == 4 && ys.all Char.isDigit
      && (ms.length == 1 || ms.length == 2) && ms.all Char.isDigit
      && (ds.length == 1 || ds.length == 2) && ds.all Char.isDigit
      && decide (1 ≤ digitsVal ys) && decide (1 ≤ digitsVal ms)
      && decide (digitsVal ms ≤ 12) && decide (1 ≤ digitsVal ds)
      && decide (digitsVal ds ≤ days_in_month (digitsVal ys) (digitsVal ms))
  | _ => false

/-- `MainApp.add_expense` (`src/EXPENSE_TRACKER.py:320`): parse the
amount with `float`, default a blank (stripped) category to `"Other"`,
validate the stripped date with `strptime`, then insert.  `none` models
the early return behind a `showerror` message box. -/
def mainapp_add_expense (db : DBState) (user_id : Nat) (amount_str category_str date_str desc_str : String) : Option DBState :=
  match pyFloat? amount_str with
  | none => none
  | some amt =>
    let cat := if strip category_str == "" then "Other" else strip category_str
    let date := strip date_str
    if valid_date date then some (add_expense db user_id amt cat (strip desc_str) date)
    else none

/-- The two possible outcomes of the budget policy. -/
inductive AlertDecision where
  | noAlert : AlertDecision
  | exceeded : AlertDecision
deriving DecidableEq

/-- The budget-alert rule at `src/EXPENSE_TRACKER.py:344`:
`if budget > 0 and total > budget: messagebox.showwarning(...)`. -/
def evaluate (total budget : ℚ) : AlertDecision :=
  if budget > 0 ∧ total > budget then AlertDecision.exceeded else AlertDecision.noAlert

/-- The specification's §4.3 description of `update`, kept alongside
`update_expense` for comparison: a hard NotFound failure whenever the
record id does not exist. -/
def update_per_spec (db : DBState) (exp_id : Nat) (amount : ℚ) (category description date : String) : Except String DBState :=
  if db.expenses.any (fun e => e.id == exp_id) then
    Except.ok (update_expense db exp_id amount category description date)
  else Except.error "NotFound"

/-- A database holding a single December expense, for the rollover
examples. -/
def dbDecember : DBState := add_expense (create_tables emptyDB) 1 5 "Food" "" "2024-12-31"

/-- A database holding two March expenses of the same category. -/
def dbMarch : DBState :=
  add_expense (add_expense (create_tables emptyDB) 1 50 "Food" "" "2024-03-15") 1 30 "Food" "" "2024-03-20"

/-- A seeded database where user 1 added a category named like a global
one. -/
def dbUserFood : DBState := (insert_category (create_tables emptyDB) "Food" (some 1)).2

/-- A seeded database holding a single expense with id 1. -/
def dbOneExpense : DBState := add_expense (create_tables emptyDB) 1 5 "Food" "" "2024-03-15"

/-- A seeded database with no expenses. -/
def dbSeeded : DBState := create_tables emptyDB

/-- An unseeded database holding a single expense of user 1. -/
def dbUserOne : DBState := add_expense emptyDB 1 5 "Food" "" "2024-03-15"

lemma get_monthly_total_eq_sum (db : DBState) (u y m : Nat) :
    get_monthly_total db u y m = ((matching_expenses db u y m).map Expense.amount).sum := by
  rcases h : (matching_expenses db u y m).map Expense.amount with _ | ⟨a, l⟩ <;>
    simp [get_monthly_total, sql_sum, h]

/-- Summing a list fiberwise over a covering list of distinct keys gives
the total sum. -/
lemma sum_map_filter_keys {α : Type} (key : α → String) (f : α → ℚ) :
    ∀ keys : List String, keys.Nodup → ∀ rows : List α, (∀ r ∈ rows, key r ∈ keys) →
      (keys.map (fun c => ((rows.filter (fun r => key r == c)).map f).sum)).sum
        = (rows.map f).sum := by
  intro keys
  induction keys with
  | nil =>
    intro _ rows hcov
    have hrows : rows = [] := by
      cases rows with
      | nil => rfl
      | cons r rs => exact absurd (hcov r (List.mem_cons_self r rs)) (List.not_mem_nil _)
    subst hrows; simp
  | cons c ks ih =>
    intro hnd rows hcov
    have hcks : c ∉ ks := (List.nodup_cons.mp hnd).1
    have hksnd : ks.Nodup := (List.nodup_cons.mp hnd).2
    have hsplit : (rows.map f).sum
        = ((rows.filter (fun r => key r == c)).map f).sum
          + ((rows.filter (fun r => !(key r == c))).map f).sum := by
      have hperm := (List.filter_append_perm (fun r => key r == c) rows).map f
      rw [← hperm.sum_eq, List.map_append, List.sum_append]
    have hcov' : ∀ r ∈ rows.filter (fun r => !(key r == c)), key r ∈ ks := by
      intro r hr
      have hmem := List.mem_filter.mp hr
      rcases List.mem_cons.mp (hcov r hmem.1) with h | h
      · exfalso
        have h2 := hmem.2
        simp [h] at h2
      · exact h
    have hgroups : ∀ c' ∈ ks,
        ((rows.filter (fun r => !(key r == c))).filter (fun r => key r == c'))
          = rows.filter (fun r => key r == c') := by
      intro c' hc'
      have hne : c' ≠ c := fun h => hcks (h ▸ hc')
      rw [List.filter_filter]
      apply List.filter_congr
      intro r _
      by_cases h : key r = c'
      · simp [h, hne]
      · simp [h]
    have hmap : (ks.map (fun c' => ((rows.filter (fun r => key r == c')).map f).sum)).sum
        = ((rows.filter (fun r => !(key r == c))).map f).sum := by
      have h1 : ks.map (fun c' => ((rows.filter (fun r => key r == c')).map f).sum)
          = ks.map (fun c' =>
              (((rows.filter (fun r => !(key r == c))).filter (fun r => key r == c')).map f).sum) :=
        List.map_congr_left (fun c' hc' => by rw [hgroups c' hc'])
      rw [h1]
      exact ih hksnd _ hcov'
    simp only [List.map_cons, List.sum_cons]
    rw [hmap]
    exact hsplit.symm

lemma lexLt_asymm : ∀ as bs : List Char, lexLt as bs = true → lexLt bs as = false := by
  intro as
  induction as with
  | nil =>
    intro bs h
    cases bs with
    | nil => simp [lexLt] at h
    | cons b bs => rfl
  | cons a as ih =>
    intro bs h
    cases bs with
    | nil => simp [lexLt] at h
    | cons b bs =>
      by_cases h1 : a.toNat < b.toNat
      · have h2 : ¬ b.toNat < a.toNat := Nat.lt_asymm h1
        simp [lexLt, h1, h2]
      · by_cases h2 : b.toNat < a.toNat
        · simp [lexLt, h1, h2] at h
        · have h' : lexLt as bs = true := by simpa [lexLt, h1, h2] using h
          simpa [lexLt, h1, h2] using ih bs h'

lemma lexLt_cases : ∀ cs as bs : List Char,
    lexLt cs as = true → lexLt cs bs = true ∨ lexLt bs as = true := by
  intro cs
  induction cs with
  | nil =>
    intro as bs h
    cases as with
    | nil => simp [lexLt] at h
    | cons a as =>
      cases bs with
      | nil => right; rfl
      | cons b bs => left; rfl
  | cons c cs ih =>
    intro as bs h
    cases as with
    | nil => simp [lexLt] at h
    | cons a as =>
      cases bs with
      | nil => right; rfl
      | cons b bs =>
        by_cases h1 : c.toNat < a.toNat
        · rcases Nat.lt_trichotomy c.toNat b.toNat with hcb | hcb | hcb
          · left; simp [lexLt, hcb]
          · right
            have hba : b.toNat < a.toNat := hcb ▸ h1
            simp [lexLt, hba]
          · right
            have hba : b.toNat < a.toNat := Nat.lt_trans hcb h1
            simp [lexLt, hba]
        · by_cases h2 : a.toNat < c.toNat
          · simp [lexLt, h1, h2] at h
          · have heq : c.toNat = a.toNat :=
              Nat.le_antisymm (Nat.not_lt.mp h2) (Nat.not_lt.mp h1)
            have h' : lexLt cs as = true := by simpa [lexLt, h1, h2] using h
            rcases ih as bs h' with hl | hr
            · rcases Nat.lt_trichotomy c.toNat b.toNat with hcb | hcb | hcb
              · left; simp [lexLt, hcb]
              · left
                have hnb1 : ¬ c.toNat < b.toNat := by omega
                have hnb2 : ¬ b.toNat < c.toNat := by omega
                simpa [lexLt, hnb1, hnb2] using hl
              · right
                have hba : b.toNat < a.toNat := heq ▸ hcb
                simp [lexLt, hba]
            · rcases Nat.lt_trichotomy b.toNat a.toNat with hba | hba | hba
              · right; simp [lexLt, hba]
              · right
                have hnb1 : ¬ b.toNat < a.toNat := by omega
                have hnb2 : ¬ a.toNat < b.toNat := by omega
                simpa [lexLt, hnb1, hnb2] using hr
              · left
                have hcb : c.toNat < b.toNat := heq ▸ hba
                simp [lexLt, hcb]

lemma strLe_total : ∀ a b : String, strLe a b = true ∨ strLe b a = true := by
  intro a b
  by_cases h : lexLt b.data a.data = true
  · right
    have := lexLt_asymm _ _ h
    simp [strLe, strLt, this]
  · left
    simp only [Bool.not_eq_true] at h
    simp [strLe, strLt, h]

lemma strLe_trans : ∀ a b c : String,
    strLe a b = true → strLe b c = true → strLe a c = true := by
  intro a b c hab hbc
  by_contra hac
  have hac' : lexLt c.data a.data = true := by
    revert hac; unfold strLe strLt; cases h : lexLt c.data a.data <;> simp
  have hab' : lexLt b.data a.data = false := by
    revert hab; unfold strLe strLt; cases h : lexLt b.data a.data <;> simp
  have hbc' : lexLt c.data b.data = false := by
    revert hbc; unfold strLe strLt; cases h : lexLt c.data b.data <;> simp
  rcases lexLt_cases c.data a.data b.data hac' with h | h
  · rw [h] at hbc'; exact Bool.noConfusion hbc'
  · rw [h] at hab'; exact Bool.noConfusion hab'

instance : IsTotal String nameAsc := ⟨strLe_total⟩

instance : IsTrans String nameAsc := ⟨fun a b c => strLe_trans a b c⟩

/-- C1: for every total and budget, the budget alert decision is
`exceeded` exactly when `budget > 0` and `total > budget`; a budget of 0
never alerts, whatever the total, and a total equal to the budget never
alerts. -/
theorem budget_alert_decision :
    (∀ total budget : ℚ,
      evaluate total budget = AlertDecision.exceeded ↔ budget > 0 ∧ total > budget)
    ∧ (∀ total : ℚ, evaluate total 0 = AlertDecision.noAlert)
    ∧ (∀ b : ℚ, evaluate b b = AlertDecision.noAlert) := by
  refine ⟨fun total budget => ?_, fun total => ?_, fun b => ?_⟩
  · by_cases h : budget > 0 ∧ total > budget <;> simp [evaluate, h]
  · simp [evaluate, lt_irrefl]
  · simp [evaluate, lt_irrefl]

/-- C2: `get_monthly_total` sums the amounts of exactly the user's
records whose date lies in the half-open string interval from
`year-month-01` (inclusive) to the first of the next month (exclusive,
with the December rollover to January 1 of `year + 1`); it yields 0 when
no record matches; and an expense dated `2024-12-31` is counted in
December 2024 and not in January 2025. -/
theorem monthly_total_spec :
    (∀ db u y m, get_monthly_total db u y m
      = ((db.expenses.filter (fun e =>
          e.user_id == u && strLe (month_start y m) e.date
            && strLt e.date (month_end y m))).map Expense.amount).sum)
    ∧ (∀ db u y m, matching_expenses db u y m = [] → get_monthly_total db u y m = 0)
    ∧ get_monthly_total dbDecember 1 2024 12 = 5
    ∧ get_monthly_total dbDecember 1 2025 1 = 0 := by
  refine ⟨fun db u y m => get_monthly_total_eq_sum db u y m, fun db u y m h => ?_, ?_, ?_⟩
  · rw [get_monthly_total_eq_sum, h]; rfl
  · have h : (matching_expenses dbDecember 1 2024 12).map Expense.amount = [5] := rfl
    rw [get_monthly_total_eq_sum, h]; simp
  · have h : matching_expenses dbDecember 1 2025 1 = [] := rfl
    rw [get_monthly_total_eq_sum, h]; rfl

/-- C2 witness: a concrete month with no matching records totals 0. -/
theorem monthly_total_spec_witness : get_monthly_total dbSeeded 3 2024 5 = 0 :=
  monthly_total_spec.2.1 dbSeeded 3 2024 5 rfl

/-- C4 (code bug): re-running the seeding loop of `DB.create_tables` is
not idempotent — each run inserts a second global row per seed name,
because SQLite's `UNIQUE(name, user_id)` treats NULL as distinct from
NULL, so the IntegrityError branch never fires for global rows. -/
theorem create_tables_seed_duplicated :
    ((create_tables emptyDB).categories.filter
        (fun c => c.name == "Food" && c.user_id == none)).length = 1
    ∧ ((create_tables (create_tables emptyDB)).categories.filter
        (fun c => c.name == "Food" && c.user_id == none)).length = 2 := by
  exact ⟨rfl, rfl⟩

/-- C8: `delete_expense` is idempotent — deleting the same id twice
leaves the same state as deleting it once, and deleting an id that is
absent from the ledger changes nothing. -/
theorem delete_expense_idempotent :
    ∀ db exp_id,
      delete_expense (delete_expense db exp_id) exp_id = delete_expense db exp_id
      ∧ ((∀ e ∈ db.expenses, e.id ≠ exp_id) → delete_expense db exp_id = db) := by
  intro db exp_id
  constructor
  · simp [delete_expense, List.filter_filter]
  · intro h
    have hfe : db.expenses.filter (fun e => !(e.id == exp_id)) = db.expenses :=
      List.filter_eq_self.mpr (fun e he => by simp [h e he])
    unfold delete_expense
    rw [hfe]

/-- C8 witness: deleting the absent id 99 from a concrete one-record
ledger is a no-op. -/
theorem delete_expense_idempotent_witness : delete_expense dbUserOne 99 = dbUserOne :=
  (delete_expense_idempotent dbUserOne 99).2 (by decide)

/-- C3: the per-category totals of `get_category_summary` sum to
`get_monthly_total` for the same user, year and month, and a category
appears in the breakdown only if some record selected by the same month
filter carries that literal category string. -/
theorem category_breakdown_sums :
    ∀ db u y m,
      ((get_category_summary db u y m).map Prod.snd).sum = get_monthly_total db u y m
      ∧ (∀ c, c ∈ (get_category_summary db u y m).map Prod.fst →
          ∃ e ∈ db.expenses,
            (e.user_id = u ∧ strLe (month_start y m) e.date = true
              ∧ strLt e.date (month_end y m) = true) ∧ e.category = c) := by
  intro db u y m
  constructor
  · unfold get_category_summary
    rw [get_monthly_total_eq_sum, List.map_map]
    have hcomp : (Prod.snd ∘ fun c =>
        (c, (((matching_expenses db u y m).filter (fun e => e.category == c)).map Expense.amount).sum))
        = fun c =>
          (((matching_expenses db u y m).filter (fun e => e.category == c)).map Expense.amount).sum := rfl
    rw [hcomp]
    exact sum_map_filter_keys Expense.category Expense.amount _
      (List.nodup_dedup _) _
      (fun r hr => List.mem_dedup.mpr (List.mem_map_of_mem Expense.category hr))
  · intro c hc
    unfold get_category_summary at hc
    rw [List.map_map] at hc
    have hc' : c ∈ ((matching_expenses db u y m).map Expense.category).dedup := by
      simpa using hc
    obtain ⟨e, he, hec⟩ := List.mem_map.mp (List.mem_dedup.mp hc')
    have hmem := List.mem_filter.mp he
    have h2 := hmem.2
    simp only [Bool.and_eq_true, beq_iff_eq] at h2
    exact ⟨e, hmem.1, ⟨h2.1.1, h2.1.2, h2.2⟩, hec⟩

/-- C3 witness: in a concrete March ledger, the category `"Food"`
appearing in the breakdown is carried by a matching record. -/
theorem category_breakdown_sums_witness :
    ∃ e ∈ dbMarch.expenses,
      (e.user_id = 1 ∧ strLe (month_start 2024 3) e.date = true
        ∧ strLt e.date (month_end 2024 3) = true) ∧ e.category = "Food" :=
  (category_breakdown_sums dbMarch 1 2024 3).2 "Food" (by decide)

/-- C5 counterexample: with the seeded globals plus a user-1 category
named `"Food"`, `get_categories` lists `"Food"` twice — equal names are
not collapsed, contradicting the claim that the result never holds
duplicate names. -/
theorem get_categories_duplicate_names :
    get_categories dbUserFood (some 1)
      = ["Bills", "Entertainment", "Food", "Food", "Other", "Shopping", "Transport"]
    ∧ ¬ (get_categories dbUserFood (some 1)).Nodup := by
  exact ⟨by decide, by decide⟩

/-- C5 (amended): `get_categories` returns the names of the global rows
together with the given user's rows, sorted ascending; duplicates are
kept, one entry per matching row (so a user category sharing a global
name appears twice). -/
theorem get_categories_sorted_perm :
    ∀ db (u : Nat),
      (get_categories db (some u)).Perm
        ((db.categories.filter
          (fun c => c.user_id == none || c.user_id == some u)).map CategoryRow.name)
      ∧ (get_categories db (some u)).Sorted nameAsc := by
  intro db u
  exact ⟨List.perm_insertionSort nameAsc _, List.sorted_insertionSort nameAsc _⟩

/-- C6 counterexample: updating the nonexistent record id 99 is a silent
no-op — the state is returned unchanged and nothing fails — whereas the
spec's description of `update` demands a hard NotFound failure. -/
theorem update_missing_id_silent_noop :
    update_expense dbOneExpense 99 7 "X" "" "2024-01-02" = dbOneExpense
    ∧ update_per_spec dbOneExpense 99 7 "X" "" "2024-01-02" = Except.error "NotFound" := by
  exact ⟨rfl, rfl⟩

/-- C6 (amended): for a record id absent from the ledger,
`update_expense` is a silent no-op that leaves the state unchanged; for
every record carrying the id, all four fields are replaced with the
given values; records with other ids are untouched. -/
theorem update_expense_semantics :
    ∀ db exp_id amount category description date,
      ((∀ e ∈ db.expenses, e.id ≠ exp_id) →
        update_expense db exp_id amount category description date = db)
      ∧ (∀ e ∈ db.expenses, e.id = exp_id →
          updated_row e amount category description date
            ∈ (update_expense db exp_id amount category description date).expenses)
      ∧ (∀ e ∈ db.expenses, e.id ≠ exp_id →
          e ∈ (update_expense db exp_id amount category description date).expenses) := by
  intro db exp_id amount category description date
  refine ⟨?_, ?_, ?_⟩
  · intro h
    unfold update_expense
    have h1 : ∀ e ∈ db.expenses,
        (if e.id == exp_id then updated_row e amount category description date else e) = id e := by
      intro e he
      simp [h e he]
    rw [List.map_congr_left h1, List.map_id]
  · intro e he hid
    have h2 : updated_row e amount category description date
        = (if e.id == exp_id then updated_row e amount category description date else e) := by
      simp [hid]
    unfold update_expense
    rw [h2]
    exact List.mem_map_of_mem _ he
  · intro e he hid
    have h2 : (if e.id == exp_id then updated_row e amount category description date else e) = e := by
      simp [hid]
    unfold update_expense
    exact h2 ▸ List.mem_map_of_mem _ he

/-- C6 witness: the amended no-op clause applied to a concrete ledger
without a record 99. -/
theorem update_expense_semantics_witness :
    update_expense dbOneExpense 99 7 "Y" "" "2024-01-03" = dbOneExpense :=
  (update_expense_semantics dbOneExpense 99 7 "Y" "" "2024-01-03").1 (by decide)

/-- C7 counterexample: the amount string `"-5"` parses to a negative
value, yet `MainApp.add_expense` accepts it — there is no sign check, so
acceptance is not restricted to positive-or-zero amounts. -/
theorem add_expense_accepts_negative_amount :
    (mainapp_add_expense dbSeeded 1 "-5" "Food" "2024-03-15" "").isSome = true
    ∧ ∃ q : ℚ, pyFloat? "-5" = some q ∧ q < 0 := by
  refine ⟨rfl, -((5 : Nat) : ℚ), rfl, by norm_num⟩

/-- C7 (amended): `MainApp.add_expense` accepts exactly when the amount
string parses as a numeric value of either sign and the stripped date
string passes the `strptime("%Y-%m-%d")` calendar check (four-digit
year; leading zero of month/day optional); on acceptance the record is
stored with a blank stripped category replaced by `"Other"`. -/
theorem mainapp_add_expense_semantics :
    ∀ db uid amount_str category_str date_str desc_str,
      ((mainapp_add_expense db uid amount_str category_str date_str desc_str).isSome = true
        ↔ (pyFloat? amount_str).isSome = true ∧ valid_date (strip date_str) = true)
      ∧ (∀ amt : ℚ, pyFloat? amount_str = some amt → valid_date (strip date_str) = true →
          mainapp_add_expense db uid amount_str category_str date_str desc_str
            = some (add_expense db uid amt
                (if strip category_str == "" then "Other" else strip category_str)
                (strip desc_str) (strip date_str))) := by
  intro db uid amount_str category_str date_str desc_str
  constructor
  · cases hp : pyFloat? amount_str with
    | none => simp [mainapp_add_expense, hp]
    | some amt =>
      by_cases hd : valid_date (strip date_str) = true
      · simp [mainapp_add_expense, hp, hd]
      · simp [mainapp_add_expense, hp, hd]
  · intro amt hp hd
    simp [mainapp_add_expense, hp, hd]

/-- C7 witness: a concrete accepted add with a blank category stored as
`"Other"`. -/
theorem mainapp_add_expense_semantics_witness :
    mainapp_add_expense dbSeeded 1 "7" "" "2024-03-15" ""
      = some (add_expense dbSeeded 1 ((7 : Nat) : ℚ) "Other" "" "2024-03-15") :=
  (mainapp_add_expense_semantics dbSeeded 1 "7" "" "2024-03-15" "").2 ((7 : Nat) : ℚ) rfl rfl

/-- C9: `add_user` returns `false` and leaves the state unchanged when
the username exists; otherwise it persists a user carrying the hash of
the secret and a zero budget.  `authenticate` succeeds exactly when some
user matches both username and stored hash; hence after a successful
registration, authenticating with the same secret returns the new user
and authenticating with a secret of a different hash returns `none`. -/
theorem register_authenticate_spec :
    ∀ (hash : String → String) (db : DBState) (u s : String),
      ((∃ r ∈ db.users, r.username = u) → add_user hash db u s = (false, db))
      ∧ ((¬ ∃ r ∈ db.users, r.username = u) →
          add_user hash db u s = (true, with_new_user db u (hash s)))
      ∧ (∀ p, (authenticate hash db u p).isSome = true
          ↔ ∃ r ∈ db.users, r.username = u ∧ r.password_hash = hash p)
      ∧ ((¬ ∃ r ∈ db.users, r.username = u) →
          authenticate hash (add_user hash db u s).2 u s = some ⟨db.next_user_id, u, hash s, 0⟩
          ∧ ∀ p, hash p ≠ hash s →
              authenticate hash (add_user hash db u s).2 u p = none) := by
  intro hash db u s
  have hanyof : ∀ h : ∃ r ∈ db.users, r.username = u,
      (db.users.any (fun r => r.username == u)) = true := by
    rintro ⟨r, hr, hru⟩
    exact List.any_eq_true.mpr ⟨r, hr, by simp [hru]⟩
  have hnoneof : ∀ _ : ¬ ∃ r ∈ db.users, r.username = u,
      (db.users.any (fun r => r.username == u)) = false := by
    intro h
    rw [Bool.eq_false_iff]
    intro hc
    obtain ⟨r, hr, hp⟩ := List.any_eq_true.mp hc
    exact h ⟨r, hr, by simpa using hp⟩
  refine ⟨?_, ?_, ?_, ?_⟩
  · intro h
    unfold add_user
    rw [if_pos (hanyof h)]
  · intro h
    unfold add_user
    rw [if_neg (by simp [hnoneof h])]
  · intro p
    unfold authenticate
    rw [List.find?_isSome]
    constructor
    · rintro ⟨r, hr, hp⟩
      refine ⟨r, hr, ?_⟩
      simpa [Bool.and_eq_true] using hp
    · rintro ⟨r, hr, h1, h2⟩
      exact ⟨r, hr, by simp [h1, h2]⟩
  · intro h
    have husers : (add_user hash db u s).2.users
        = db.users ++ [⟨db.next_user_id, u, hash s, 0⟩] := by
      unfold add_user
      rw [if_neg (by simp [hnoneof h])]
      rfl
    have hfind : ∀ q : UserRow → Bool, (∀ r, q r = true → r.username = u) →
        db.users.find? q = none := by
      intro q hq
      exact List.find?_eq_none.mpr (fun r hr hqr => h ⟨r, hr, hq r hqr⟩)
    constructor
    · unfold authenticate
      rw [husers, List.find?_append, hfind _ (fun r hqr => by
        have := (Bool.and_eq_true _ _).mp hqr
        simpa using this.1)]
      simp [List.find?]
    · intro p hp
      unfold authenticate
      rw [husers, List.find?_append, hfind _ (fun r hqr => by
        have := (Bool.and_eq_true _ _).mp hqr
        simpa using this.1)]
      have hne : (hash s == hash p) = false := by
        rw [beq_eq_false_iff_ne]
        exact fun hc => hp hc.symm
      simp [List.find?, hne]

/-- C9 witness: registering alice with pw1 then authenticating with pw1
and with pw2, under a concrete hash function. -/
theorem register_authenticate_spec_witness :
    add_user (fun x => x) emptyDB "alice" "pw1"
      = (true, with_new_user emptyDB "alice" "pw1")
    ∧ authenticate (fun x => x) (add_user (fun x => x) emptyDB "alice" "pw1").2 "alice" "pw1"
      = some ⟨1, "alice", "pw1", 0⟩
    ∧ authenticate (fun x => x) (add_user (fun x => x) emptyDB "alice" "pw1").2 "alice" "pw2"
      = none :=
  ⟨(register_authenticate_spec (fun x => x) emptyDB "alice" "pw1").2.1 (by decide),
   ((register_authenticate_spec (fun x => x) emptyDB "alice" "pw1").2.2.2 (by decide)).1,
   ((register_authenticate_spec (fun x => x) emptyDB "alice" "pw1").2.2.2 (by decide)).2
     "pw2" (by decide)⟩

/-- C10: adding an expense for user `b` changes nothing another user `a`
observes — expense list, monthly total and category breakdown of `a`
stay identical for every year and month. -/
theorem add_expense_frame :
    ∀ db (a b : Nat) (amount : ℚ) (category description date : String) (y m : Nat),
      a ≠ b →
      get_expenses (add_expense db b amount category description date) a = get_expenses db a
      ∧ get_monthly_total (add_expense db b amount category description date) a y m
          = get_monthly_total db a y m
      ∧ get_category_summary (add_expense db b amount category description date) a y m
          = get_category_summary db a y m := by
  intro db a b amount category description date y m hab
  have hba : (b == a) = false := by
    rw [beq_eq_false_iff_ne]
    exact fun hc => hab hc.symm
  have hfilter : ∀ p : Expense → Bool,
      p ⟨db.next_expense_id, b, amount, category, description, date⟩ = false →
      (add_expense db b amount category description date).expenses.filter p
        = db.expenses.filter p := by
    intro p hp
    have hexp : (add_expense db b amount category description date).expenses
        = db.expenses ++ [⟨db.next_expense_id, b, amount, category, description, date⟩] := rfl
    rw [hexp, List.filter_append]
    simp [List.filter_cons, hp]
  have hm : matching_expenses (add_expense db b amount category description date) a y m
      = matching_expenses db a y m := by
    unfold matching_expenses
    exact hfilter _ (by simp [hba])
  refine ⟨?_, ?_, ?_⟩
  · unfold get_expenses
    rw [hfilter _ (by simp [hba])]
  · simp [get_monthly_total, hm]
  · simp [get_category_summary, hm]

/-- C10 witness: adding an expense for user 2 leaves user 1's expense
list unchanged in a concrete state. -/
theorem add_expense_frame_witness :
    get_expenses (add_expense dbUserOne 2 7 "Food" "" "2024-03-20") 1 = get_expenses dbUserOne 1 :=
  (add_expense_frame dbUserOne 1 2 7 "Food" "" "2024-03-20" 2024 3 (by decide)).1

end ExpenseTracker
